import Mathlib

/-!
Shallow embedding of `src/managers/storage.js` (SharpBot), a dot-path
key-value store: the module-level path accessor functions `set`/`get`
(lines 4-53), the `StorageAdapter` class (lines 80-212) and the
`Storage` registry/factory class (lines 55-78).

The JavaScript value universe is modelled by `JVal` (undefined, null,
booleans, numbers as integers, strings, and plain objects as ordered
association lists).  Arrays, functions and string index/length
properties are outside the model; documents are finite trees (no
aliasing cycles), matching JSON-parsed data.  Mutation of the shared
object graph is rendered as explicit state passing: an operation that
can mutate its root returns the new root.  Thrown exceptions are
rendered with `Except` / explicit outcome components, distinguishing
the explicitly thrown `TypeError`s, the runtime's native TypeError on
property access through null/undefined, and plain `Error`s.
The file is written for Lean 4.14 / Mathlib.
-/

/-- A JavaScript value, as used by the storage module: `undefined`,
`null`, booleans, numbers (modelled as integers; the module never does
arithmetic), strings, and plain objects modelled as ordered association
lists of string keys (JS objects preserve insertion order for
non-numeric keys). -/
inductive JVal where
  | vUndefined : JVal
  | vNull : JVal
  | vBool : Bool → JVal
  | vNum : Int → JVal
  | vStr : String → JVal
  | vObj : List (String × JVal) → JVal

/-- A thrown JavaScript exception: an explicitly constructed
`TypeError` with its message, the runtime's native `TypeError` raised
by a property access on `null`/`undefined` (carrying the accessed
key), or a plain `Error` with its message. -/
inductive JErr where
  | typeError : String → JErr
  | nativeTypeError : String → JErr
  | genError : String → JErr

/-- First-match association-list lookup, the model of reading an own
property of a JS object. -/
def alookup {β : Type} : List (String × β) → String → Option β
  | [], _ => none
  | (k2, v) :: rest, k => if k2 = k then some v else alookup rest k

/-- Association-list update: replaces the first binding of the key in
place, or appends a new binding — exactly the JS property-order
behaviour of `obj[key] = v` (existing keys keep their position, new
keys go last). -/
def aupdate {β : Type} : List (String × β) → String → β → List (String × β)
  | [], k, v => [(k, v)]
  | (k2, v2) :: rest, k, v =>
      if k2 = k then (k, v) :: rest else (k2, v2) :: aupdate rest k v

/-- JavaScript truthiness: `undefined`, `null`, `false`, `0` and the
empty string are falsy, everything else (including every object, even
`{}`) is truthy. -/
def jsTruthy : JVal → Bool
  | .vUndefined => false
  | .vNull => false
  | .vBool b => b
  | .vNum n => n != 0
  | .vStr s => s ≠ ""
  | .vObj _ => true

/-- The test `typeof x === 'object'` used by the source at lines 5, 26
and 45: true for objects and also for `null` (a JS quirk the source
inherits). -/
def isTypeofObject : JVal → Bool
  | .vNull => true
  | .vObj _ => true
  | _ => false

/-- The strict-equality test `x === null` (line 157, 177, 198). -/
def JVal.isNull : JVal → Bool
  | .vNull => true
  | _ => false

/-- The test `typeof x === 'string'` (lines 9, 30, 181, 202). -/
def isStr : JVal → Bool
  | .vStr _ => true
  | _ => false

/-- A value that is an actual mapping (a plain object); `null` is not a
mapping even though `typeof null === 'object'`. -/
def isMapping : JVal → Bool
  | .vObj _ => true
  | _ => false

/-- The property read `v[key]`: on objects, the own property or
`undefined`; on `null`/`undefined`, the runtime throws a native
TypeError; on other primitives the result is `undefined` (string
index/length properties are outside the model). -/
def jsReadProp : JVal → String → Except JErr JVal
  | .vObj fields, k => .ok ((alookup fields k).getD .vUndefined)
  | .vNull, k => .error (.nativeTypeError k)
  | .vUndefined, k => .error (.nativeTypeError k)
  | _, _ => .ok .vUndefined

/-- The property write `v[key] = w` in sloppy mode (the source module
has no `'use strict'`): updates objects, throws a native TypeError on
`null`/`undefined`, and is silently discarded on other primitives.
Returns the written-to value after the write. -/
def jsWriteProp : JVal → String → JVal → Except JErr JVal
  | .vObj fields, k, w => .ok (.vObj (aupdate fields k w))
  | .vNull, k, _ => .error (.nativeTypeError k)
  | .vUndefined, k, _ => .error (.nativeTypeError k)
  | v, _, _ => .ok v

/-- Splitting a char list on `'.'`, accumulator style; every dot is a
separator and empty pieces are kept, exactly like
`keyPath.split(/\./g)` at lines 13 and 34. -/
def splitDotsAux : List Char → List Char → List String
  | [], acc => [String.mk acc.reverse]
  | c :: cs, acc =>
      if c = '.' then String.mk acc.reverse :: splitDotsAux cs []
      else splitDotsAux cs (c :: acc)

/-- The segment list of a key path: `"a.b"` gives `["a","b"]`, `""`
gives `[""]`, `"a..b"` gives `["a","","b"]` — the behaviour of
`keyPath.split(/\./g)`. -/
def splitDots (s : String) : List String :=
  splitDotsAux s.data []

namespace PathAccessor

/-- The loop of `set` (lines 15-22) followed by the final assignment
`current[split[split.length - 1]] = value`: walks all segments but the
last with `current = current[key] || (current[key] = {})` and then
writes `value` at the last segment.  Descending into a truthy
primitive makes every later write land on a detached fresh object, so
the primitive's subtree is returned unchanged, as in JS sloppy mode. -/
def setGo : JVal → List String → JVal → Except JErr JVal
  | cur, [], _ => .ok cur
  | cur, [k], v => jsWriteProp cur k v
  | cur, k :: k2 :: rest, v =>
      match cur with
      | .vObj fields =>
          let w := (alookup fields k).getD .vUndefined
          if jsTruthy w then
            match setGo w (k2 :: rest) v with
            | .error e => .error e
            | .ok w2 => .ok (.vObj (aupdate fields k w2))
          else
            match setGo (.vObj []) (k2 :: rest) v with
            | .error e => .error e
            | .ok w2 => .ok (.vObj (aupdate fields k w2))
      | .vNull => .error (.nativeTypeError k)
      | .vUndefined => .error (.nativeTypeError k)
      | other => .ok other

/-- The module-level `set(object, keyPath, value)` (lines 4-23):
rejects non-`typeof`-object roots and non-string key paths with the
source's TypeErrors, then runs the auto-vivifying descent.  Returns
the root after the mutation. -/
def set (object keyPath value : JVal) : Except JErr JVal :=
  if !isTypeofObject object then .error (.typeError "object must be an object")
  else
    match keyPath with
    | .vStr s => setGo object (splitDots s) value
    | _ => .error (.typeError "keyPath must be a string")

/-- The loop of `get` (lines 36-50) followed by the final read
`current[split[split.length - 1]]`: reads each intermediate segment,
accumulates the traversed keys into `pre` (with no separator, as
`path += key` does), and throws the descriptive TypeError when an
intermediate is not `typeof` object. -/
def getGo : JVal → List String → String → Except JErr JVal
  | _, [], _ => .ok .vUndefined
  | cur, [k], _ => jsReadProp cur k
  | cur, k :: k2 :: rest, pre =>
      match jsReadProp cur k with
      | .error e => .error e
      | .ok next =>
          if isTypeofObject next then getGo next (k2 :: rest) (pre ++ k)
          else .error (.typeError ("value at " ++ (pre ++ k) ++ " was not an object"))

/-- The module-level `get(object, keyPath)` (lines 25-53): rejects
non-`typeof`-object roots and non-string key paths, then descends and
returns the value at the final segment (or `undefined` when the final
key is absent). -/
def get (object keyPath : JVal) : Except JErr JVal :=
  if !isTypeofObject object then .error (.typeError "object must be an object")
  else
    match keyPath with
    | .vStr s => getGo object (splitDots s) ""
    | _ => .error (.typeError "keyPath must be a string")

end PathAccessor

namespace PathAccessor

/-- An instrumented version of the `get` loop that, besides the
outcome, reconstructs the root object graph as it would stand after
the call: at each descent step the child reached is written back into
its parent slot.  Since `get` only performs reads, the reconstructed
root is provably the original one; the instrumentation makes that a
theorem rather than an artefact of the embedding. -/
def getGoF : JVal → List String → String → JVal × Except JErr JVal
  | cur, [], _ => (cur, .ok .vUndefined)
  | cur, [k], _ => (cur, jsReadProp cur k)
  | cur, k :: k2 :: rest, pre =>
      match jsReadProp cur k with
      | .error e => (cur, .error e)
      | .ok next =>
          if isTypeofObject next then
            match cur with
            | .vObj fields =>
                let r := getGoF next (k2 :: rest) (pre ++ k)
                (.vObj (aupdate fields k r.1), r.2)
            | other => (other, (getGoF next (k2 :: rest) (pre ++ k)).2)
          else (cur, .error (.typeError ("value at " ++ (pre ++ k) ++ " was not an object")))

/-- The instrumented `get(object, keyPath)`: same checks as `get`, and
additionally returns the (un)changed root alongside the outcome. -/
def getF (object keyPath : JVal) : JVal × Except JErr JVal :=
  if !isTypeofObject object then (object, .error (.typeError "object must be an object"))
  else
    match keyPath with
    | .vStr s => getGoF object (splitDots s) ""
    | _ => (object, .error (.typeError "keyPath must be a string"))

end PathAccessor

/-- The abstract durable document store (`fs-extra` in the source):
for each location, `none` means no file exists (`existsSync` false),
`some none` means the file exists but `readJSONSync` throws (corrupt
or unreadable), and `some (some d)` means it parses to document `d`. -/
def Store : Type := String → Option (Option JVal)

/-- A successful `writeJSONSync`: afterwards the location holds the
document. -/
def storeWrite (st : Store) (loc : String) (d : JVal) : Store :=
  fun l => if l = loc then some (some d) else st l

/-- The in-memory state of one `StorageAdapter`: its resolved storage
file path and its `data` field (`JVal.vNull` is the unloaded/failed
sentinel, as in the source where `data` is `null`). -/
structure AdapterSt where
  storageFile : String
  data : JVal

namespace StorageAdapter

/-- The body of `load()` (lines 137-149): a missing file yields an
empty document `{}`; a file that exists but fails to parse logs and
leaves `data = null`; otherwise `data` is the parsed document.
Returns the resulting `data`. -/
def load (store : Store) (storageFile : String) : JVal :=
  match store storageFile with
  | none => .vObj []
  | some none => .vNull
  | some (some d) => d

/-- The method `get(key)` (lines 176-186) on an adapter whose `data`
field is `data`: throws the "Data has yet to be loaded" `Error` when
unloaded, the "key must be a string" TypeError on non-string keys, and
otherwise delegates to the module-level path accessor `get`. -/
def get (data key : JVal) : Except JErr JVal :=
  if data.isNull then .error (.genError "Data has yet to be loaded")
  else if !isStr key then .error (.typeError "key must be a string")
  else PathAccessor.get data key

/-- The method `set(key, value)` (lines 197-211): after the unloaded
and string checks it first captures `oldValue = this.get(key)` — so a
throwing lookup aborts the call before any write — then runs the
path-accessor `set` and returns the captured old value.  The first
component is the adapter's `data` after the call, the second the
outcome. -/
def set (data key value : JVal) : JVal × Except JErr JVal :=
  if data.isNull then (data, .error (.genError "Data has yet to be loaded"))
  else if !isStr key then (data, .error (.typeError "key must be a string"))
  else
    match StorageAdapter.get data key with
    | .error e => (data, .error e)
    | .ok oldValue =>
        match PathAccessor.set data key value with
        | .error e => (data, .error e)
        | .ok data2 => (data2, .ok oldValue)

/-- The method `save()` (lines 156-166) of an adapter with state
`data`/`storageFile`, against durable store `st`; `writeFails`
says which locations `writeJSONSync` would throw for.  An unloaded
adapter throws the "Data has yet to be loaded" `Error`; a write
failure is caught and only logged (store unchanged, nothing thrown). -/
def save (data : JVal) (writeFails : String → Bool) (st : Store) (storageFile : String) :
    Store × Option JErr :=
  if data.isNull then (st, some (.genError "Data has yet to be loaded"))
  else if writeFails storageFile then (st, none)
  else (storeWrite st storageFile data, none)

end StorageAdapter

/-- The registry state built by the `Storage` constructor (lines
56-71): the insertion-ordered, append-only `cache` mapping each
requested storage-file name to the identity of its adapter, a heap of
adapter instances keyed by identity, and a fresh-identity counter.
Object identity — which the JS heap provides implicitly — is made
explicit with `Nat` identifiers so that "same instance" is a provable
statement. -/
structure Registry where
  nextId : Nat
  cache : List (String × Nat)
  adapters : List (Nat × AdapterSt)

/-- First-match lookup in the adapter heap. -/
def idLookup : List (Nat × AdapterSt) → Nat → Option AdapterSt
  | [], _ => none
  | (i2, a) :: rest, i => if i2 = i then some a else idLookup rest i

/-- In-place update of the adapter heap at an identity. -/
def idUpdate : List (Nat × AdapterSt) → Nat → AdapterSt → List (Nat × AdapterSt)
  | [], i, a => [(i, a)]
  | (i2, a2) :: rest, i, a =>
      if i2 = i then (i, a) :: rest else (i2, a2) :: idUpdate rest i a

namespace Storage

/-- The suffix test `realPath.endsWith('.json')` (line 61), computed
on the character lists. -/
def strEndsWith (s suffix : String) : Bool :=
  decide (suffix.data.length ≤ s.data.length) &&
    (s.data.drop (s.data.length - suffix.data.length) == suffix.data)

/-- The location resolution inside the factory (lines 60-63):
`path.resolve(global.settings.configsFolder, storageFile)` modelled as
joining with a slash, then `.json` appended unless already present. -/
def resolveLocation (configsFolder storageFile : String) : String :=
  let realPath := configsFolder ++ "/" ++ storageFile
  if strEndsWith realPath ".json" then realPath else realPath ++ ".json"

/-- The factory function returned by the `Storage` constructor (lines
59-66): `cache[storageFile] || (cache[storageFile] = new
StorageAdapter(realPath))`.  On a cache miss a fresh adapter is
constructed (its constructor immediately runs `load()`, lines 87-98)
and cached; on a hit the cached instance is returned and nothing is
constructed.  Returns the new registry state and the identity of the
returned adapter. -/
def factory (configsFolder : String) (store : Store) (R : Registry) (storageFile : String) :
    Registry × Nat :=
  match alookup R.cache storageFile with
  | some i => (R, i)
  | none =>
      let realPath := resolveLocation configsFolder storageFile
      let a : AdapterSt := ⟨realPath, StorageAdapter.load store realPath⟩
      (⟨R.nextId + 1,
        R.cache ++ [(storageFile, R.nextId)],
        R.adapters ++ [(R.nextId, a)]⟩, R.nextId)

/-- Calling `get(key)` on the adapter designated by identity `i` in
registry `R`. -/
def regGet (R : Registry) (i : Nat) (key : JVal) : Except JErr JVal :=
  match idLookup R.adapters i with
  | none => .error (.genError "no such adapter")
  | some a => StorageAdapter.get a.data key

/-- Calling `set(key, value)` on the adapter designated by identity
`i`: the adapter's `data` is updated in the shared registry state, so
the effect is visible through every reference to the same identity. -/
def regSet (R : Registry) (i : Nat) (key value : JVal) : Registry × Except JErr JVal :=
  match idLookup R.adapters i with
  | none => (R, .error (.genError "no such adapter"))
  | some a =>
      let r := StorageAdapter.set a.data key value
      (⟨R.nextId, R.cache, idUpdate R.adapters i ⟨a.storageFile, r.1⟩⟩, r.2)

/-- The iteration of `saveAll()` (lines 73-77): `for (const key in
this.cache) this.cache[key].save()` walks the cache in insertion
order; a thrown save (unloaded adapter) propagates out of the loop and
aborts the remaining iterations, while caught write failures do not.
Returns the durable store reached and the propagated exception, if
any.  (A dangling identity would be calling `save` on `undefined`;
it cannot arise from factory-built registries.) -/
def saveAllGo (writeFails : String → Bool) (adapters : List (Nat × AdapterSt)) :
    List (String × Nat) → Store → Store × Option JErr
  | [], st => (st, none)
  | (_, i) :: rest, st =>
      match idLookup adapters i with
      | none => (st, some (.nativeTypeError "save"))
      | some a =>
          match StorageAdapter.save a.data writeFails st a.storageFile with
          | (st2, none) => saveAllGo writeFails adapters rest st2
          | (st2, some e) => (st2, some e)

/-- The method `saveAll()` (lines 73-77) on registry state `R`. -/
def saveAll (writeFails : String → Bool) (R : Registry) (st : Store) : Store × Option JErr :=
  saveAllGo writeFails R.adapters R.cache st

end Storage

/-- The path (through actual mappings) reaches an intermediate segment
whose value is truthy but not `typeof` object — the one situation
where `get`'s traversal throws while `set`'s traversal silently
descends into a detached object. -/
def hasBadIntermediate : JVal → List String → Bool
  | .vObj fields, k :: k2 :: rest =>
      let w := (alookup fields k).getD .vUndefined
      (jsTruthy w && !isTypeofObject w) ||
        (isTypeofObject w && hasBadIntermediate w (k2 :: rest))
  | _, _ => false

/-- Every intermediate segment of the path resolves to an actual
mapping. -/
def intermediatesOk : JVal → List String → Bool
  | _, [] => true
  | _, [_] => true
  | .vObj fields, k :: k2 :: rest =>
      match (alookup fields k).getD .vUndefined with
      | .vObj fields2 => intermediatesOk (.vObj fields2) (k2 :: rest)
      | _ => false
  | _, _ :: _ :: _ => false

/-- Modelled from the spec: the plain lookup that descends through the
intermediate mappings and reads the final segment, `undefined` when
the final key is absent (the "absent sentinel" of the spec's
`getPath`).  Meaningful when `intermediatesOk` holds. -/
def specLookup : JVal → List String → JVal
  | v, [] => v
  | .vObj fields, [k] => (alookup fields k).getD .vUndefined
  | .vObj fields, k :: k2 :: rest =>
      specLookup ((alookup fields k).getD .vUndefined) (k2 :: rest)
  | _, _ => .vUndefined

/-- When the traversal (through actual mappings) reaches an
intermediate whose value is not `typeof` object, the accumulated
prefix — the segments traversed so far including the failing one,
joined without separators — that the thrown TypeError names. -/
def badPrefix : JVal → List String → String → Option String
  | .vObj fields, k :: k2 :: rest, acc =>
      let w := (alookup fields k).getD .vUndefined
      if isTypeofObject w then badPrefix w (k2 :: rest) (acc ++ k)
      else some (acc ++ k)
  | _, _, _ => none

/-- The traversal (through actual mappings) reaches an intermediate
segment whose value is `null`: the key whose read then throws the
native TypeError (the segment after the `null` one). -/
def nullReached : JVal → List String → Option String
  | .vObj fields, k :: k2 :: rest =>
      match (alookup fields k).getD .vUndefined with
      | .vNull => some k2
      | .vObj fields2 => nullReached (.vObj fields2) (k2 :: rest)
      | _ => none
  | _, _ => none

/-- A value on which any property access throws the native TypeError:
`null` or `undefined`. -/
def isNullish : JVal → Bool
  | .vNull => true
  | .vUndefined => true
  | _ => false

/-- Classifies an outcome as the explicitly thrown, prefix-naming
TypeError of the `get` traversal (as opposed to a native TypeError or
a successful return). -/
def isDescriptiveError : Except JErr JVal → Bool
  | .error (.typeError _) => true
  | _ => false

/-- The adapter heap holds a loaded adapter (one whose `data` is not
the `null` sentinel) at the given identity. -/
def loadedAt (adapters : List (Nat × AdapterSt)) (i : Nat) : Bool :=
  match idLookup adapters i with
  | some a => !a.data.isNull
  | none => false

/-- One step of a completed `saveAll` iteration: the durable store
after calling `save()` on the adapter designated by a cache entry
(identity missing: no store effect). -/
def saveStep (writeFails : String → Bool) (adapters : List (Nat × AdapterSt))
    (st : Store) (entry : String × Nat) : Store :=
  match idLookup adapters entry.2 with
  | some a => (StorageAdapter.save a.data writeFails st a.storageFile).1
  | none => st

/-- Lookup after an in-place update at the same key. -/
theorem alookup_aupdate {β : Type} (l : List (String × β)) (k : String) (v : β) :
    alookup (aupdate l k v) k = some v := by
  induction l with
  | nil => simp [alookup, aupdate]
  | cons hd tl ih =>
      obtain ⟨k2, v2⟩ := hd
      by_cases h : k2 = k
      · simp [alookup, aupdate, h]
      · simp [alookup, aupdate, h, ih]

/-- Lookup after an in-place update at a different key. -/
theorem alookup_aupdate_ne {β : Type} (l : List (String × β)) (k k2 : String) (v : β)
    (h : k2 ≠ k) : alookup (aupdate l k v) k2 = alookup l k2 := by
  induction l with
  | nil => simp [alookup, aupdate, Ne.symm h]
  | cons hd tl ih =>
      obtain ⟨k3, v3⟩ := hd
      by_cases h3 : k3 = k
      · subst h3
        simp [alookup, aupdate, Ne.symm h]
      · simp [alookup, aupdate, h3, ih]

/-- Writing back the value already present leaves the object
unchanged. -/
theorem aupdate_self {β : Type} (l : List (String × β)) (k : String) (v : β)
    (h : alookup l k = some v) : aupdate l k v = l := by
  induction l with
  | nil => simp [alookup] at h
  | cons hd tl ih =>
      obtain ⟨k2, v2⟩ := hd
      by_cases h2 : k2 = k
      · subst h2
        simp [alookup] at h
        simp [aupdate, h]
      · simp [alookup, h2] at h
        simp [aupdate, h2, ih h]

/-- In-place update at an identity present in the heap is found by
lookup. -/
theorem idLookup_idUpdate (l : List (Nat × AdapterSt)) (i : Nat) (a : AdapterSt) :
    idLookup (idUpdate l i a) i = some a := by
  induction l with
  | nil => simp [idLookup, idUpdate]
  | cons hd tl ih =>
      obtain ⟨i2, a2⟩ := hd
      by_cases h : i2 = i
      · simp [idLookup, idUpdate, h]
      · simp [idLookup, idUpdate, h, ih]

/-- A property read through `null` throws the native TypeError on the
first segment read, whatever the remaining path is. -/
theorem getGo_vNull (k : String) (l : List String) (pre : String) :
    PathAccessor.getGo .vNull (k :: l) pre = .error (.nativeTypeError k) := by
  cases l <;> rfl

/-- The auto-vivifying `set` traversal never throws when started from
a value that is not `null`/`undefined` (in particular from any
mapping): falsy slots are overwritten with `{}` and truthy
non-objects absorb the rest of the path without effect. -/
theorem setGo_ok (segs : List String) : ∀ (cur v : JVal), isNullish cur = false →
    ∃ r, PathAccessor.setGo cur segs v = .ok r := by
  induction segs with
  | nil => exact fun cur v _ => ⟨cur, rfl⟩
  | cons k rest ih =>
      intro cur v h
      cases rest with
      | nil =>
          cases cur with
          | vNull => simp [isNullish] at h
          | vUndefined => simp [isNullish] at h
          | vObj fields => exact ⟨_, rfl⟩
          | vBool b => exact ⟨_, rfl⟩
          | vNum n => exact ⟨_, rfl⟩
          | vStr s => exact ⟨_, rfl⟩
      | cons k2 rest2 =>
          cases cur with
          | vNull => simp [isNullish] at h
          | vUndefined => simp [isNullish] at h
          | vObj fields =>
              by_cases ht : jsTruthy ((alookup fields k).getD .vUndefined) = true
              · have hnn : isNullish ((alookup fields k).getD .vUndefined) = false := by
                  cases hv : (alookup fields k).getD .vUndefined <;>
                    simp_all [jsTruthy, isNullish]
                obtain ⟨r, hr⟩ := ih _ v hnn
                exact ⟨.vObj (aupdate fields k r), by simp [PathAccessor.setGo, ht, hr]⟩
              · obtain ⟨r, hr⟩ := ih (.vObj []) v rfl
                exact ⟨.vObj (aupdate fields k r), by simp [PathAccessor.setGo, ht, hr]⟩
          | vBool b => exact ⟨_, rfl⟩
          | vNum n => exact ⟨_, rfl⟩
          | vStr s => exact ⟨_, rfl⟩

/-- A `{}` root has no truthy intermediate at all: every slot reads
back `undefined`. -/
theorem hasBadIntermediate_empty (segs : List String) :
    hasBadIntermediate (.vObj []) segs = false := by
  cases segs with
  | nil => rfl
  | cons k rest => cases rest <;> rfl

/-- Write-then-read round trip along a path on which the plain `get`
traversal succeeds: the `set` traversal rebuilds exactly the same
mapping chain and the written value is read back. -/
theorem roundtripGo (segs : List String) :
    ∀ (fields : List (String × JVal)) (v w : JVal) (pre pre2 : String), segs ≠ [] →
    PathAccessor.getGo (.vObj fields) segs pre = .ok w →
    ∃ fields2, PathAccessor.setGo (.vObj fields) segs v = .ok (.vObj fields2) ∧
      PathAccessor.getGo (.vObj fields2) segs pre2 = .ok v := by
  induction segs with
  | nil => exact fun _ _ _ _ _ hne _ => absurd rfl hne
  | cons k rest ih =>
      intro fields v w pre pre2 _ hget
      cases rest with
      | nil =>
          refine ⟨aupdate fields k v, rfl, ?_⟩
          simp [PathAccessor.getGo, jsReadProp, alookup_aupdate]
      | cons k2 rest2 =>
          cases hv : (alookup fields k).getD .vUndefined with
          | vNull =>
              rw [PathAccessor.getGo] at hget
              simp [jsReadProp, hv, isTypeofObject, getGo_vNull] at hget
          | vObj fields3 =>
              rw [PathAccessor.getGo] at hget
              simp [jsReadProp, hv, isTypeofObject] at hget
              obtain ⟨fields4, hset4, hget4⟩ :=
                ih fields3 v w (pre ++ k) (pre2 ++ k) (by simp) hget
              refine ⟨aupdate fields k (.vObj fields4), ?_, ?_⟩
              · rw [PathAccessor.setGo]
                simp [hv, jsTruthy, hset4]
              · rw [PathAccessor.getGo]
                simp [jsReadProp, alookup_aupdate, isTypeofObject, hget4]
          | vUndefined =>
              rw [PathAccessor.getGo] at hget
              simp [jsReadProp, hv, isTypeofObject] at hget
          | vBool b =>
              rw [PathAccessor.getGo] at hget
              simp [jsReadProp, hv, isTypeofObject] at hget
          | vNum n =>
              rw [PathAccessor.getGo] at hget
              simp [jsReadProp, hv, isTypeofObject] at hget
          | vStr s =>
              rw [PathAccessor.getGo] at hget
              simp [jsReadProp, hv, isTypeofObject] at hget

/-- Auto-vivification works: along a path with no truthy non-object
intermediate, the `set` traversal yields a mapping chain from which
the written value reads back. -/
theorem vivifyGo (segs : List String) :
    ∀ (fields : List (String × JVal)) (v : JVal) (pre : String), segs ≠ [] →
    hasBadIntermediate (.vObj fields) segs = false →
    ∃ fields2, PathAccessor.setGo (.vObj fields) segs v = .ok (.vObj fields2) ∧
      PathAccessor.getGo (.vObj fields2) segs pre = .ok v := by
  induction segs with
  | nil => exact fun _ _ _ hne _ => absurd rfl hne
  | cons k rest ih =>
      intro fields v pre _ hbad
      cases rest with
      | nil =>
          refine ⟨aupdate fields k v, rfl, ?_⟩
          simp [PathAccessor.getGo, jsReadProp, alookup_aupdate]
      | cons k2 rest2 =>
          rw [hasBadIntermediate] at hbad
          by_cases ht : jsTruthy ((alookup fields k).getD .vUndefined) = true
          · cases hv : (alookup fields k).getD .vUndefined with
            | vObj fields3 =>
                rw [hv] at hbad
                simp [jsTruthy, isTypeofObject] at hbad
                obtain ⟨fields4, hset4, hget4⟩ := ih fields3 v (pre ++ k) (by simp) hbad
                refine ⟨aupdate fields k (.vObj fields4), ?_, ?_⟩
                · rw [PathAccessor.setGo]
                  simp [hv, jsTruthy, hset4]
                · rw [PathAccessor.getGo]
                  simp [jsReadProp, alookup_aupdate, isTypeofObject, hget4]
            | vNull => rw [hv] at ht; simp [jsTruthy] at ht
            | vUndefined => rw [hv] at ht; simp [jsTruthy] at ht
            | vBool b => rw [hv] at hbad; simp [jsTruthy, isTypeofObject, ht, hv] at hbad ht; simp [ht] at hbad
            | vNum n =>
                rw [hv] at hbad ht
                simp [jsTruthy, isTypeofObject, ht] at hbad
                simp [hbad, jsTruthy] at ht
            | vStr s =>
                rw [hv] at hbad ht
                simp [jsTruthy, isTypeofObject, ht] at hbad
                simp [hbad, jsTruthy] at ht
          · obtain ⟨fields4, hset4, hget4⟩ :=
              ih [] v (pre ++ k) (by simp) (hasBadIntermediate_empty _)
            refine ⟨aupdate fields k (.vObj fields4), ?_, ?_⟩
            · rw [PathAccessor.setGo]
              simp [ht, hset4]
            · rw [PathAccessor.getGo]
              simp [jsReadProp, alookup_aupdate, isTypeofObject, hget4]

/-- The predicate `hasBadIntermediate` is vacuous on paths with fewer
than two segments. -/
theorem hasBadIntermediate_short (v : JVal) :
    hasBadIntermediate v [] = false ∧ ∀ k, hasBadIntermediate v [k] = false := by
  cases v <;> exact ⟨rfl, fun _ => rfl⟩

/-- The predicate `hasBadIntermediate` is vacuous below a `null`
value: nothing resolves through `null`. -/
theorem hasBadIntermediate_vNull (segs : List String) :
    hasBadIntermediate .vNull segs = false := by
  cases segs with
  | nil => rfl
  | cons a l => cases l <;> rfl

/-- A truthy non-object intermediate makes the `get` traversal throw
its descriptive TypeError. -/
theorem hasBad_getGo_error (segs : List String) :
    ∀ (fields : List (String × JVal)) (pre : String),
    hasBadIntermediate (.vObj fields) segs = true →
    ∃ m, PathAccessor.getGo (.vObj fields) segs pre = .error (.typeError m) := by
  induction segs with
  | nil =>
      intro fields pre hbad
      rw [(hasBadIntermediate_short (.vObj fields)).1] at hbad
      simp at hbad
  | cons k rest ih =>
      intro fields pre hbad
      cases rest with
      | nil =>
          rw [(hasBadIntermediate_short (.vObj fields)).2 k] at hbad
          simp at hbad
      | cons k2 rest2 =>
          rw [hasBadIntermediate] at hbad
          simp only [Bool.or_eq_true, Bool.and_eq_true] at hbad
          rcases hbad with ⟨ht, hno⟩ | ⟨hobj, hrec⟩
          · refine ⟨"value at " ++ (pre ++ k) ++ " was not an object", ?_⟩
            rw [PathAccessor.getGo]
            cases hv : (alookup fields k).getD .vUndefined <;>
              rw [hv] at hno <;> simp [jsReadProp, hv, isTypeofObject] <;>
                simp [isTypeofObject] at hno
          · cases hv : (alookup fields k).getD .vUndefined with
            | vObj fields3 =>
                rw [hv] at hrec
                obtain ⟨m, hm⟩ := ih fields3 (pre ++ k) hrec
                refine ⟨m, ?_⟩
                rw [PathAccessor.getGo]
                simp [jsReadProp, hv, isTypeofObject, hm]
            | vNull =>
                rw [hv] at hrec
                rw [hasBadIntermediate_vNull] at hrec
                simp at hrec
            | vUndefined => rw [hv] at hobj; simp [isTypeofObject] at hobj
            | vBool b => rw [hv] at hobj; simp [isTypeofObject] at hobj
            | vNum n => rw [hv] at hobj; simp [isTypeofObject] at hobj
            | vStr s => rw [hv] at hobj; simp [isTypeofObject] at hobj

/-- When every intermediate segment resolves to an actual mapping, the
`get` traversal returns the plain lookup of the final segment, without
any error. -/
theorem intermediatesOk_getGo (segs : List String) :
    ∀ (fields : List (String × JVal)) (pre : String), segs ≠ [] →
    intermediatesOk (.vObj fields) segs = true →
    PathAccessor.getGo (.vObj fields) segs pre =
      .ok (specLookup (.vObj fields) segs) := by
  induction segs with
  | nil => exact fun _ _ hne _ => absurd rfl hne
  | cons k rest ih =>
      intro fields pre _ hok
      cases rest with
      | nil => rfl
      | cons k2 rest2 =>
          rw [intermediatesOk] at hok
          cases hv : (alookup fields k).getD .vUndefined with
          | vObj fields3 =>
              rw [hv] at hok
              rw [PathAccessor.getGo]
              simp only [jsReadProp, hv, isTypeofObject]
              rw [specLookup, hv]
              exact ih fields3 (pre ++ k) (by simp) hok
          | vNull => rw [hv] at hok; simp at hok
          | vUndefined => rw [hv] at hok; simp at hok
          | vBool b => rw [hv] at hok; simp at hok
          | vNum n => rw [hv] at hok; simp at hok
          | vStr s => rw [hv] at hok; simp at hok

/-- When the traversal reaches a non-`typeof`-object intermediate, the
`get` traversal throws the descriptive TypeError naming exactly the
accumulated prefix (segments joined without separators). -/
theorem badPrefix_getGo (segs : List String) :
    ∀ (fields : List (String × JVal)) (pre out : String),
    badPrefix (.vObj fields) segs pre = some out →
    PathAccessor.getGo (.vObj fields) segs pre =
      .error (.typeError ("value at " ++ out ++ " was not an object")) := by
  induction segs with
  | nil => intro fields pre out h; exact absurd h (by simp [badPrefix])
  | cons k rest ih =>
      intro fields pre out h
      cases rest with
      | nil => exact absurd h (by simp [badPrefix])
      | cons k2 rest2 =>
          rw [badPrefix] at h
          by_cases hto : isTypeofObject ((alookup fields k).getD .vUndefined) = true
          · simp only [hto, if_true] at h
            cases hv : (alookup fields k).getD .vUndefined with
            | vObj fields3 =>
                rw [hv] at h
                rw [PathAccessor.getGo]
                simp only [jsReadProp, hv, isTypeofObject]
                exact ih fields3 (pre ++ k) out h
            | vNull => rw [hv] at h; exact absurd h (by simp [badPrefix])
            | vUndefined => rw [hv] at hto; simp [isTypeofObject] at hto
            | vBool b => rw [hv] at hto; simp [isTypeofObject] at hto
            | vNum n => rw [hv] at hto; simp [isTypeofObject] at hto
            | vStr s => rw [hv] at hto; simp [isTypeofObject] at hto
          · simp only [hto, if_false] at h
            have hout : out = pre ++ k := by
              cases h; rfl
            rw [PathAccessor.getGo, hout]
            cases hv : (alookup fields k).getD .vUndefined <;> rw [hv] at hto <;>
              simp [jsReadProp, hv, isTypeofObject] <;> simp [isTypeofObject] at hto

/-- When the traversal reaches a `null` intermediate, the `get`
traversal throws the runtime's native TypeError on the following
segment's read — not the descriptive prefix-naming one. -/
theorem nullReached_getGo (segs : List String) :
    ∀ (fields : List (String × JVal)) (pre kf : String),
    nullReached (.vObj fields) segs = some kf →
    PathAccessor.getGo (.vObj fields) segs pre = .error (.nativeTypeError kf) := by
  induction segs with
  | nil => intro fields pre kf h; exact absurd h (by simp [nullReached])
  | cons k rest ih =>
      intro fields pre kf h
      cases rest with
      | nil => exact absurd h (by simp [nullReached])
      | cons k2 rest2 =>
          rw [nullReached] at h
          cases hv : (alookup fields k).getD .vUndefined with
          | vNull =>
              rw [hv] at h
              simp only [Option.some.injEq] at h
              rw [PathAccessor.getGo]
              simp only [jsReadProp, hv, isTypeofObject]
              rw [← h]
              exact getGo_vNull k2 rest2 (pre ++ k)
          | vObj fields3 =>
              rw [hv] at h
              rw [PathAccessor.getGo]
              simp only [jsReadProp, hv, isTypeofObject]
              exact ih fields3 (pre ++ k) kf h
          | vUndefined => rw [hv] at h; simp at h
          | vBool b => rw [hv] at h; simp at h
          | vNum n => rw [hv] at h; simp at h
          | vStr s => rw [hv] at h; simp at h

/-- The instrumented `get` loop gives back exactly the root it was
started from: a read traversal writes nothing anywhere. -/
theorem getGoF_fst (segs : List String) : ∀ (cur : JVal) (pre : String),
    (PathAccessor.getGoF cur segs pre).1 = cur := by
  induction segs with
  | nil => intro cur pre; rfl
  | cons k rest ih =>
      intro cur pre
      cases rest with
      | nil => rfl
      | cons k2 rest2 =>
          cases cur with
          | vObj fields =>
              rw [PathAccessor.getGoF]
              cases halk : alookup fields k with
              | none => simp [jsReadProp, halk, isTypeofObject]
              | some w =>
                  by_cases hto : isTypeofObject w = true
                  · simp only [jsReadProp, halk, Option.getD_some, hto, if_true]
                    have hw : aupdate fields k (PathAccessor.getGoF w (k2 :: rest2) (pre ++ k)).1
                        = aupdate fields k w := by rw [ih]
                    simp [hw, aupdate_self fields k w halk]
                  · simp [jsReadProp, halk, hto]
          | vNull => rfl
          | vUndefined => rfl
          | vBool b => simp [PathAccessor.getGoF, jsReadProp, isTypeofObject]
          | vNum n => simp [PathAccessor.getGoF, jsReadProp, isTypeofObject]
          | vStr s => simp [PathAccessor.getGoF, jsReadProp, isTypeofObject]

/-- The instrumented `get` loop computes the same outcome as the plain
one. -/
theorem getGoF_snd (segs : List String) : ∀ (cur : JVal) (pre : String),
    (PathAccessor.getGoF cur segs pre).2 = PathAccessor.getGo cur segs pre := by
  induction segs with
  | nil => intro cur pre; rfl
  | cons k rest ih =>
      intro cur pre
      cases rest with
      | nil => rfl
      | cons k2 rest2 =>
          cases cur with
          | vObj fields =>
              rw [PathAccessor.getGoF, PathAccessor.getGo]
              by_cases hto : isTypeofObject ((alookup fields k).getD .vUndefined) = true
              · simp [jsReadProp, hto, ih]
              · simp [jsReadProp, hto]
          | vNull => rfl
          | vUndefined => rfl
          | vBool b => simp [PathAccessor.getGoF, PathAccessor.getGo, jsReadProp, isTypeofObject]
          | vNum n => simp [PathAccessor.getGoF, PathAccessor.getGo, jsReadProp, isTypeofObject]
          | vStr s => simp [PathAccessor.getGoF, PathAccessor.getGo, jsReadProp, isTypeofObject]

/-- Splitting never produces an empty segment list: even the empty
path gives the single empty segment. -/
theorem splitDotsAux_ne_nil (cs : List Char) : ∀ acc, splitDotsAux cs acc ≠ [] := by
  induction cs with
  | nil => intro acc; simp [splitDotsAux]
  | cons c cs2 ih =>
      intro acc
      rw [splitDotsAux]
      by_cases h : c = '.' <;> simp [h, ih]

/-- A key path always has at least one segment. -/
theorem splitDots_ne_nil (s : String) : splitDots s ≠ [] :=
  splitDotsAux_ne_nil s.data []

/-- C1: for every mapping root, every path with more than one segment
and every value, `set` replaces each missing-or-falsy intermediate
slot with a fresh empty mapping, descends, and assigns the value under
the final segment without throwing; moreover, whenever no intermediate
slot holds a truthy non-mapping (the only case where the descent
escapes into a detached object), the assigned value is read back by
`get` on the same path — the vivified chain really exists in the
root. -/
theorem claim_C1 (fields : List (String × JVal)) (p : String) (v : JVal)
    (hn : 1 < (splitDots p).length) :
    (∃ root2, PathAccessor.set (.vObj fields) (.vStr p) v = .ok root2) ∧
    (hasBadIntermediate (.vObj fields) (splitDots p) = false →
      ∀ root2, PathAccessor.set (.vObj fields) (.vStr p) v = .ok root2 →
        PathAccessor.get root2 (.vStr p) = .ok v) := by
  have hne : splitDots p ≠ [] := splitDots_ne_nil p
  constructor
  · obtain ⟨r, hr⟩ := setGo_ok (splitDots p) (.vObj fields) v rfl
    exact ⟨r, by rw [PathAccessor.set]; simpa [isTypeofObject] using hr⟩
  · intro hbad root2 hset
    obtain ⟨fields2, hset2, hget2⟩ := vivifyGo (splitDots p) fields v "" hne hbad
    rw [PathAccessor.set] at hset
    simp only [isTypeofObject, Bool.not_true, if_neg, Bool.false_eq_true,
      not_false_eq_true] at hset
    rw [hset2] at hset
    obtain rfl : JVal.vObj fields2 = root2 := by
      cases hset; rfl
    rw [PathAccessor.get]
    simpa [isTypeofObject] using hget2

/-- Witness for C1 at the spec's own example `set({}, "x.y.z", 1)`. -/
theorem claim_C1_witness :
    (∃ root2, PathAccessor.set (.vObj []) (.vStr "x.y.z") (JVal.vNum 1) = .ok root2) ∧
    (hasBadIntermediate (.vObj []) (splitDots "x.y.z") = false →
      ∀ root2, PathAccessor.set (.vObj []) (.vStr "x.y.z") (JVal.vNum 1) = .ok root2 →
        PathAccessor.get root2 (.vStr "x.y.z") = .ok (JVal.vNum 1)) :=
  claim_C1 [] "x.y.z" (JVal.vNum 1) (by decide)

/-- C2 counterexample: in the mapping `{a: null}` the intermediate
segment `a` of the path `"a.b"` resolves to `null`, which is not a
mapping, yet `get` does not raise its descriptive prefix-naming
TypeError — it raises the runtime's native TypeError from reading
`null['b']` (because `typeof null === 'object'` passes the check at
line 45). -/
theorem claim_C2_counterexample :
    isMapping JVal.vNull = false ∧
    PathAccessor.get (.vObj [("a", JVal.vNull)]) (.vStr "a.b") =
      .error (.nativeTypeError "b") ∧
    isDescriptiveError
      (PathAccessor.get (.vObj [("a", JVal.vNull)]) (.vStr "a.b")) = false :=
  ⟨rfl, rfl, rfl⟩

/-- C2 as amended: on a mapping root, `get` raises the descriptive
TypeError naming the traversed prefix (joined without separators)
exactly in the cases where the traversal meets an intermediate that is
not `typeof` object; an intermediate that is `null` — a non-mapping
which `typeof` classifies as object — instead raises the native
TypeError of the next segment read; and when every intermediate
resolves to an actual mapping, `get` returns the value at the final
segment (the absent sentinel `undefined` when the final key is
missing) without raising. -/
theorem claim_C2_amended (fields : List (String × JVal)) (p : String) :
    (intermediatesOk (.vObj fields) (splitDots p) = true →
      PathAccessor.get (.vObj fields) (.vStr p) =
        .ok (specLookup (.vObj fields) (splitDots p))) ∧
    (∀ out, badPrefix (.vObj fields) (splitDots p) "" = some out →
      PathAccessor.get (.vObj fields) (.vStr p) =
        .error (.typeError ("value at " ++ out ++ " was not an object"))) ∧
    (∀ kf, nullReached (.vObj fields) (splitDots p) = some kf →
      PathAccessor.get (.vObj fields) (.vStr p) = .error (.nativeTypeError kf)) := by
  refine ⟨fun hok => ?_, fun out hbp => ?_, fun kf hnr => ?_⟩
  · rw [PathAccessor.get]
    simpa [isTypeofObject] using
      intermediatesOk_getGo (splitDots p) fields "" (splitDots_ne_nil p) hok
  · rw [PathAccessor.get]
    simpa [isTypeofObject] using badPrefix_getGo (splitDots p) fields "" out hbp
  · rw [PathAccessor.get]
    simpa [isTypeofObject] using nullReached_getGo (splitDots p) fields "" kf hnr

/-- Witness for the amended C2, on the spec's example document
`{x:{y:{z:1}}}`: a successful nested read, and the descriptive error
for the path `"x.y.z.q"` (whose intermediate `z` is the number 1),
naming the prefix `xyz`. -/
theorem claim_C2_amended_witness :
    PathAccessor.get
        (.vObj [("x", .vObj [("y", .vObj [("z", JVal.vNum 1)])])])
        (.vStr "x.y.z") = .ok (JVal.vNum 1) ∧
    PathAccessor.get
        (.vObj [("x", .vObj [("y", .vObj [("z", JVal.vNum 1)])])])
        (.vStr "x.y.z.q") =
      .error (.typeError ("value at " ++ "xyz" ++ " was not an object")) :=
  ⟨(claim_C2_amended [("x", .vObj [("y", .vObj [("z", JVal.vNum 1)])])] "x.y.z").1 rfl,
   (claim_C2_amended [("x", .vObj [("y", .vObj [("z", JVal.vNum 1)])])] "x.y.z.q").2.1
     "xyz" rfl⟩

/-- A value passing the `typeof x === 'string'` check is a string. -/
theorem isStr_exists (key : JVal) (h : isStr key = true) : ∃ s, key = JVal.vStr s := by
  cases key with
  | vStr s => exact ⟨s, rfl⟩
  | vUndefined => simp [isStr] at h
  | vNull => simp [isStr] at h
  | vBool b => simp [isStr] at h
  | vNum n => simp [isStr] at h
  | vObj fields => simp [isStr] at h

/-- A non-`null` value passing `typeof x === 'object'` is an actual
mapping. -/
theorem typeofObject_not_null (data : JVal) (h1 : isTypeofObject data = true)
    (h2 : data.isNull = false) : ∃ fields, data = JVal.vObj fields := by
  cases data with
  | vObj fields => exact ⟨fields, rfl⟩
  | vNull => simp [JVal.isNull] at h2
  | vUndefined => simp [isTypeofObject] at h1
  | vBool b => simp [isTypeofObject] at h1
  | vNum n => simp [isTypeofObject] at h1
  | vStr s => simp [isTypeofObject] at h1

/-- On an adapter whose `get(key)` succeeds with `w`, `set(key, v)`
returns `w` and the updated data reads back `v` at the same key. -/
theorem adapter_set_roundtrip (data key v w : JVal)
    (h : StorageAdapter.get data key = .ok w) :
    (StorageAdapter.set data key v).2 = .ok w ∧
    StorageAdapter.get (StorageAdapter.set data key v).1 key = .ok v := by
  have hnn : data.isNull = false := by
    by_cases hx : data.isNull = true
    · rw [StorageAdapter.get, if_pos hx] at h; cases h
    · simpa using hx
  have hks : isStr key = true := by
    by_cases hx : isStr key = true
    · exact hx
    · rw [StorageAdapter.get, if_neg (by simp [hnn]), if_pos (by simp [hx])] at h
      cases h
  obtain ⟨s, rfl⟩ := isStr_exists key hks
  have hp : PathAccessor.get data (.vStr s) = .ok w := by
    rw [StorageAdapter.get, if_neg (by simp [hnn]), if_neg (by simp [isStr])] at h
    exact h
  have hto : isTypeofObject data = true := by
    by_cases hx : isTypeofObject data = true
    · exact hx
    · rw [PathAccessor.get, if_pos (by simp [hx])] at hp; cases hp
  obtain ⟨fields, rfl⟩ := typeofObject_not_null data hto hnn
  have hgo : PathAccessor.getGo (.vObj fields) (splitDots s) "" = .ok w := by
    rw [PathAccessor.get] at hp
    simpa [isTypeofObject] using hp
  obtain ⟨fields2, hset2, hget2⟩ :=
    roundtripGo (splitDots s) fields v w "" "" (splitDots_ne_nil s) hgo
  have hsetTop : PathAccessor.set (.vObj fields) (.vStr s) v = .ok (.vObj fields2) := by
    rw [PathAccessor.set]
    simpa [isTypeofObject] using hset2
  have hstep : StorageAdapter.set (.vObj fields) (.vStr s) v = (.vObj fields2, .ok w) := by
    rw [StorageAdapter.set, if_neg (by simp [JVal.isNull]), if_neg (by simp [isStr]),
      h, hsetTop]
  rw [hstep]
  refine ⟨rfl, ?_⟩
  rw [StorageAdapter.get, if_neg (by simp [JVal.isNull]), if_neg (by simp [isStr]),
    PathAccessor.get]
  simpa [isTypeofObject] using hget2

/-- C3: on a loaded adapter, whenever `get(path)` succeeds with prior
value `w`, `set(path, v)` returns `w` (the old value captured before
the write, line 206) and an immediately following `get(path)` on the
updated adapter returns `v`. -/
theorem claim_C3 (data key v w : JVal)
    (h : StorageAdapter.get data key = .ok w) :
    (StorageAdapter.set data key v).2 = .ok w ∧
    StorageAdapter.get (StorageAdapter.set data key v).1 key = .ok v :=
  adapter_set_roundtrip data key v w h

/-- Witness for C3 on the document `{a:{b:1}}` and the path `"a.b"`:
setting 7 returns the old value 1, and re-reading gives 7. -/
theorem claim_C3_witness :
    (StorageAdapter.set (.vObj [("a", .vObj [("b", JVal.vNum 1)])])
        (.vStr "a.b") (JVal.vNum 7)).2 = .ok (JVal.vNum 1) ∧
    StorageAdapter.get
        (StorageAdapter.set (.vObj [("a", .vObj [("b", JVal.vNum 1)])])
          (.vStr "a.b") (JVal.vNum 7)).1
        (.vStr "a.b") = .ok (JVal.vNum 7) :=
  claim_C3 (.vObj [("a", .vObj [("b", JVal.vNum 1)])]) (.vStr "a.b")
    (JVal.vNum 7) (JVal.vNum 1) rfl

/-- C4 counterexample: with no document at the storage location,
`load()` does yield the empty document, but the subsequent
`get("a.b")` — a multi-segment path — throws the traversal TypeError
instead of returning the absent sentinel, because the missing
intermediate `a` reads back `undefined`, which fails the
`typeof === 'object'` check. -/
theorem claim_C4_counterexample :
    StorageAdapter.load (fun _ => none) "cfg.json" = .vObj [] ∧
    StorageAdapter.get (.vObj []) (.vStr "a.b") =
      .error (.typeError "value at a was not an object") :=
  ⟨rfl, rfl⟩

/-- C4 as amended: when no document exists at the storage location,
`load()` sets `data` to the empty mapping without error; a subsequent
`get` returns the absent sentinel for single-segment paths, but for
any path with two or more segments it throws the descriptive traversal
TypeError on the first segment (whose missing value `undefined` is not
`typeof` object). -/
theorem claim_C4_amended (store : Store) (loc : String) (hmiss : store loc = none)
    (p s1 : String) (rest : List String) (hsegs : splitDots p = s1 :: rest) :
    StorageAdapter.load store loc = .vObj [] ∧
    (rest = [] → StorageAdapter.get (.vObj []) (.vStr p) = .ok .vUndefined) ∧
    (rest ≠ [] → StorageAdapter.get (.vObj []) (.vStr p) =
      .error (.typeError ("value at " ++ ("" ++ s1) ++ " was not an object"))) := by
  refine ⟨by rw [StorageAdapter.load, hmiss], fun hnil => ?_, fun hcons => ?_⟩
  · rw [StorageAdapter.get, if_neg (by simp [JVal.isNull]), if_neg (by simp [isStr]),
      PathAccessor.get]
    simp only [isTypeofObject, Bool.not_true, Bool.false_eq_true, if_false]
    rw [hsegs, hnil]
    rfl
  · rw [StorageAdapter.get, if_neg (by simp [JVal.isNull]), if_neg (by simp [isStr]),
      PathAccessor.get]
    simp only [isTypeofObject, Bool.not_true, Bool.false_eq_true, if_false]
    rw [hsegs]
    cases rest with
    | nil => exact absurd rfl hcons
    | cons s2 rest2 =>
        rw [PathAccessor.getGo]
        simp [jsReadProp, alookup, isTypeofObject]

/-- Witness for the amended C4: a missing file loads as `{}`; then a
single-segment read gives the sentinel and a two-segment read
throws. -/
theorem claim_C4_amended_witness :
    (StorageAdapter.load (fun _ => none) "guild.json" = .vObj [] ∧
      (([] : List String) = [] →
        StorageAdapter.get (.vObj []) (.vStr "a") = .ok .vUndefined) ∧
      (([] : List String) ≠ [] →
        StorageAdapter.get (.vObj []) (.vStr "a") =
          .error (.typeError ("value at " ++ ("" ++ "a") ++ " was not an object")))) ∧
    (StorageAdapter.load (fun _ => none) "guild.json" = .vObj [] ∧
      (["b"] = ([] : List String) →
        StorageAdapter.get (.vObj []) (.vStr "a.b") = .ok .vUndefined) ∧
      (["b"] ≠ ([] : List String) →
        StorageAdapter.get (.vObj []) (.vStr "a.b") =
          .error (.typeError ("value at " ++ ("" ++ "a") ++ " was not an object")))) :=
  ⟨claim_C4_amended (fun _ => none) "guild.json" rfl "a" "a" [] rfl,
   claim_C4_amended (fun _ => none) "guild.json" rfl "a.b" "a" ["b"] rfl⟩

/-- C5: when the document at the storage location exists but fails to
parse, `load()` leaves the adapter unloaded (`data = null`, line 147),
and in that state every `get`, `set` and `save` throws the
"Data has yet to be loaded" error without touching any data — `set`
leaves `data` unchanged and `save` leaves the durable store
unchanged — until a reload from a parseable document replaces `data`
with the parsed document. -/
theorem claim_C5 (store : Store) (loc : String) (hbad : store loc = some none)
    (key v : JVal) (writeFails : String → Bool) (st : Store)
    (store2 : Store) (d : JVal) (hgood : store2 loc = some (some d)) :
    StorageAdapter.load store loc = .vNull ∧
    StorageAdapter.get .vNull key = .error (.genError "Data has yet to be loaded") ∧
    StorageAdapter.set .vNull key v =
      (.vNull, .error (.genError "Data has yet to be loaded")) ∧
    StorageAdapter.save .vNull writeFails st loc =
      (st, some (.genError "Data has yet to be loaded")) ∧
    StorageAdapter.load store2 loc = d := by
  refine ⟨by rw [StorageAdapter.load, hbad], rfl, rfl, rfl,
    by rw [StorageAdapter.load, hgood]⟩

/-- Witness for C5 with a store whose only document is corrupt, and a
reloaded store carrying `{a: 2}`. -/
theorem claim_C5_witness :
    StorageAdapter.load (fun _ => some none) "cfg.json" = .vNull ∧
    StorageAdapter.get .vNull (.vStr "a") =
      .error (.genError "Data has yet to be loaded") ∧
    StorageAdapter.set .vNull (.vStr "a") (JVal.vNum 3) =
      (.vNull, .error (.genError "Data has yet to be loaded")) ∧
    StorageAdapter.save .vNull (fun _ => false) (fun _ => none) "cfg.json" =
      ((fun _ => none : Store), some (.genError "Data has yet to be loaded")) ∧
    StorageAdapter.load (fun _ => some (some (.vObj [("a", JVal.vNum 2)]))) "cfg.json" =
      .vObj [("a", JVal.vNum 2)] :=
  claim_C5 (fun _ => some none) "cfg.json" rfl (.vStr "a") (JVal.vNum 3)
    (fun _ => false) (fun _ => none)
    (fun _ => some (some (.vObj [("a", JVal.vNum 2)]))) (.vObj [("a", JVal.vNum 2)]) rfl

/-- Appending a binding for a key that is absent makes it the lookup
result. -/
theorem alookup_append_missing {β : Type} (l : List (String × β)) (k : String) (x : β)
    (h : alookup l k = none) : alookup (l ++ [(k, x)]) k = some x := by
  induction l with
  | nil => simp [alookup]
  | cons hd tl ih =>
      obtain ⟨k2, v2⟩ := hd
      by_cases h2 : k2 = k
      · simp [alookup, h2] at h
      · simp [alookup, h2] at h ⊢
        exact ih h

/-- Appending an adapter under a fresh identity makes it the lookup
result. -/
theorem idLookup_append_missing (l : List (Nat × AdapterSt)) (i : Nat) (a : AdapterSt)
    (h : idLookup l i = none) : idLookup (l ++ [(i, a)]) i = some a := by
  induction l with
  | nil => simp [idLookup]
  | cons hd tl ih =>
      obtain ⟨i2, a2⟩ := hd
      by_cases h2 : i2 = i
      · simp [idLookup, h2] at h
      · simp [idLookup, h2] at h ⊢
        exact ih h


/-- The factory on a cache hit returns the cached identity and leaves
the registry untouched: nothing is constructed. -/
theorem factory_hit (configsFolder : String) (store : Store) (R : Registry)
    (n : String) (i : Nat) (hc : alookup R.cache n = some i) :
    Storage.factory configsFolder store R n = (R, i) := by
  rw [Storage.factory, hc]

/-- The factory on a cache miss constructs a freshly loaded adapter at
the resolved location, appends it to the cache and heap, and returns
its fresh identity. -/
theorem factory_miss (configsFolder : String) (store : Store) (R : Registry)
    (n : String) (hc : alookup R.cache n = none) :
    Storage.factory configsFolder store R n =
      (⟨R.nextId + 1, R.cache ++ [(n, R.nextId)],
        R.adapters ++ [(R.nextId,
          ⟨Storage.resolveLocation configsFolder n,
            StorageAdapter.load store (Storage.resolveLocation configsFolder n)⟩)]⟩,
       R.nextId) := by
  rw [Storage.factory, hc]

/-- C6: the first `registry(name)` call for a name not yet cached
constructs a new adapter, loaded at the resolved location, and every
later call with the same name returns the identical cached instance —
the same identity, with no change to the registry — so a mutation
performed through the first returned reference is observed through the
second: after a successful `set` via one reference, `get` via the
other returns the written value.  (`hfresh` is the allocator
invariant: the next identity is not yet in use; it holds for every
registry built from the empty one by `factory` calls.) -/
theorem claim_C6 (configsFolder : String) (store : Store) (R : Registry) (n : String)
    (R1 R2 : Registry) (i1 i2 : Nat)
    (hfresh : idLookup R.adapters R.nextId = none)
    (h1 : Storage.factory configsFolder store R n = (R1, i1))
    (h2 : Storage.factory configsFolder store R1 n = (R2, i2)) :
    i2 = i1 ∧ R2 = R1 ∧
    (alookup R.cache n = none →
      idLookup R1.adapters i1 =
        some ⟨Storage.resolveLocation configsFolder n,
          StorageAdapter.load store (Storage.resolveLocation configsFolder n)⟩) ∧
    (∀ key v w, Storage.regGet R1 i1 key = .ok w →
      (Storage.regSet R1 i1 key v).2 = .ok w ∧
      Storage.regGet (Storage.regSet R1 i1 key v).1 i2 key = .ok v) := by
  have hmain : i2 = i1 ∧ R2 = R1 ∧
      (alookup R.cache n = none →
        idLookup R1.adapters i1 =
          some ⟨Storage.resolveLocation configsFolder n,
            StorageAdapter.load store (Storage.resolveLocation configsFolder n)⟩) := by
    cases hc : alookup R.cache n with
    | some i =>
        rw [factory_hit configsFolder store R n i hc] at h1
        injection h1 with hR1 hi1
        subst hR1; subst hi1
        rw [factory_hit configsFolder store R n i hc] at h2
        injection h2 with hR2 hi2
        subst hR2; subst hi2
        exact ⟨rfl, rfl, fun hnone => Option.noConfusion hnone⟩
    | none =>
        rw [factory_miss configsFolder store R n hc] at h1
        injection h1 with hR1 hi1
        subst hR1; subst hi1
        have hc2 : alookup (R.cache ++ [(n, R.nextId)]) n = some R.nextId :=
          alookup_append_missing R.cache n R.nextId hc
        rw [factory_hit configsFolder store _ n R.nextId hc2] at h2
        injection h2 with hR2 hi2
        subst hR2; subst hi2
        exact ⟨rfl, rfl,
          fun _ => idLookup_append_missing R.adapters R.nextId _ hfresh⟩
  obtain ⟨hi, hR, hcons⟩ := hmain
  refine ⟨hi, hR, hcons, fun key v w hg => ?_⟩
  rw [Storage.regGet] at hg
  cases hl : idLookup R1.adapters i1 with
  | none => rw [hl] at hg; cases hg
  | some a =>
      rw [hl] at hg
      obtain ⟨hold, hnew⟩ := adapter_set_roundtrip a.data key v w hg
      rw [Storage.regSet, hl]
      refine ⟨hold, ?_⟩
      rw [hi, Storage.regGet]
      simp only [idLookup_idUpdate]
      exact hnew

/-- Witness for C6: starting from the empty registry, `"foo"` is
created once, the repeated call returns the same identity 0, and a
`set` of 1 at `"x"` through the first reference is read back through
the second. -/
theorem claim_C6_witness :
    (Storage.regSet ⟨1, [("foo", 0)], [(0, ⟨"configs/foo.json", .vObj []⟩)]⟩ 0
        (.vStr "x") (JVal.vNum 1)).2 = .ok .vUndefined ∧
    Storage.regGet
      (Storage.regSet ⟨1, [("foo", 0)], [(0, ⟨"configs/foo.json", .vObj []⟩)]⟩ 0
        (.vStr "x") (JVal.vNum 1)).1 0 (.vStr "x") = .ok (JVal.vNum 1) :=
  (claim_C6 "configs" (fun _ => none) ⟨0, [], []⟩ "foo"
    ⟨1, [("foo", 0)], [(0, ⟨"configs/foo.json", .vObj []⟩)]⟩
    ⟨1, [("foo", 0)], [(0, ⟨"configs/foo.json", .vObj []⟩)]⟩
    0 0 rfl rfl rfl).2.2.2 (.vStr "x") (JVal.vNum 1) .vUndefined rfl

/-- C7 counterexample: in a registry whose first cached adapter is
unloaded (its document was corrupt at load time) and whose second is
loaded, `saveAll()` propagates the first adapter's thrown "Data has
yet to be loaded" error and never reaches the second adapter — its
location stays unwritten — although the second adapter's own `save()`
would have succeeded. -/
theorem claim_C7_counterexample :
    Storage.saveAll (fun _ => false)
        ⟨2, [("a", 0), ("b", 1)],
          [(0, ⟨"configs/a.json", .vNull⟩), (1, ⟨"configs/b.json", .vObj []⟩)]⟩
        (fun _ => none) =
      ((fun _ => none : Store), some (.genError "Data has yet to be loaded")) ∧
    (Storage.saveAll (fun _ => false)
        ⟨2, [("a", 0), ("b", 1)],
          [(0, ⟨"configs/a.json", .vNull⟩), (1, ⟨"configs/b.json", .vObj []⟩)]⟩
        (fun _ => none)).1 "configs/b.json" = none ∧
    StorageAdapter.save (.vObj []) (fun _ => false) (fun _ => none) "configs/b.json" =
      (storeWrite (fun _ => none) "configs/b.json" (.vObj []), none) :=
  ⟨rfl, rfl, rfl⟩

/-- When every adapter reachable from the cache is loaded, the
`saveAll` iteration runs to completion: it performs each `save` once,
in cache insertion order, threading the durable store through the
fold; caught write failures do not stop it and nothing is thrown. -/
theorem saveAllGo_all_loaded (writeFails : String → Bool)
    (adapters : List (Nat × AdapterSt)) (cache : List (String × Nat)) :
    ∀ st : Store, (∀ e ∈ cache, loadedAt adapters e.2 = true) →
    Storage.saveAllGo writeFails adapters cache st =
      (cache.foldl (saveStep writeFails adapters) st, none) := by
  induction cache with
  | nil => intro st _; rfl
  | cons hd tl ih =>
      intro st h
      obtain ⟨n, i⟩ := hd
      have hhd := h (n, i) (List.mem_cons_self _ _)
      rw [loadedAt] at hhd
      cases hl : idLookup adapters i with
      | none => rw [hl] at hhd; cases hhd
      | some a =>
          rw [hl] at hhd
          have hnn : a.data.isNull = false := by simpa using hhd
          have htl := fun e he => h e (List.mem_cons_of_mem _ he)
          by_cases hw : writeFails a.storageFile = true
          · simp only [Storage.saveAllGo, hl, List.foldl_cons, saveStep,
              StorageAdapter.save, hnn, hw, Bool.false_eq_true, if_false, if_true]
            exact ih st htl
          · simp only [Storage.saveAllGo, hl, List.foldl_cons, saveStep,
              StorageAdapter.save, hnn, hw, Bool.false_eq_true, if_false]
            exact ih (storeWrite st a.storageFile a.data) htl

/-- C7 as amended: `saveAll()` invokes `save()` exactly once on every
cached adapter, in cache insertion order, and a caught write failure
of one save does not prevent the remaining saves — provided every
cached adapter is loaded; when some cached adapter is unloaded, its
`save()` throws and `saveAll` aborts, skipping every adapter after it
(as the counterexample shows). -/
theorem claim_C7_amended (writeFails : String → Bool) (R : Registry) (st : Store)
    (h : ∀ e ∈ R.cache, loadedAt R.adapters e.2 = true) :
    Storage.saveAll writeFails R st =
      (R.cache.foldl (saveStep writeFails R.adapters) st, none) :=
  saveAllGo_all_loaded writeFails R.adapters R.cache st h

/-- Witness for the amended C7: both adapters loaded, the first
location's write failing; `saveAll` still completes without throwing
and the fold records both save attempts in order. -/
theorem claim_C7_amended_witness :
    Storage.saveAll (fun l => l == "configs/a.json")
        ⟨2, [("a", 0), ("b", 1)],
          [(0, ⟨"configs/a.json", .vObj [("k", JVal.vNum 1)]⟩),
           (1, ⟨"configs/b.json", .vObj []⟩)]⟩
        (fun _ => none) =
      ([("a", 0), ("b", 1)].foldl
        (saveStep (fun l => l == "configs/a.json")
          [(0, ⟨"configs/a.json", .vObj [("k", JVal.vNum 1)]⟩),
           (1, ⟨"configs/b.json", .vObj []⟩)])
        (fun _ => none), none) :=
  claim_C7_amended (fun l => l == "configs/a.json")
    ⟨2, [("a", 0), ("b", 1)],
      [(0, ⟨"configs/a.json", .vObj [("k", JVal.vNum 1)]⟩),
       (1, ⟨"configs/b.json", .vObj []⟩)]⟩
    (fun _ => none) (by decide)

/-- C8 counterexample: the empty string is not rejected: on the
mapping `{}` both `get` and `set` accept the path `""`, treating it as
the single empty-string key — `get` returns the absent sentinel and
`set` stores the value under the key `""` — where the claim demands a
TypeError from both. -/
theorem claim_C8_counterexample :
    PathAccessor.get (.vObj []) (.vStr "") = .ok .vUndefined ∧
    PathAccessor.set (.vObj []) (.vStr "") (JVal.vNum 5) =
      .ok (.vObj [("", JVal.vNum 5)]) :=
  ⟨rfl, rfl⟩

/-- C8 as amended: `setPath` and `getPath` raise their TypeError
exactly when the supplied path is not a string — the emptiness of the
string is never checked: the empty string is accepted and handled as a
single empty-string segment, read and written like any other key
(and, as with leading/trailing/double dots, empty segments are
ordinary keys). -/
theorem claim_C8_amended (fields : List (String × JVal)) (kp v : JVal) :
    (isStr kp = false →
      PathAccessor.set (.vObj fields) kp v =
        .error (.typeError "keyPath must be a string") ∧
      PathAccessor.get (.vObj fields) kp =
        .error (.typeError "keyPath must be a string")) ∧
    PathAccessor.set (.vObj fields) (.vStr "") v =
      .ok (.vObj (aupdate fields "" v)) ∧
    PathAccessor.get (.vObj fields) (.vStr "") =
      .ok ((alookup fields "").getD .vUndefined) := by
  refine ⟨fun hns => ?_, rfl, rfl⟩
  cases kp with
  | vStr s => simp [isStr] at hns
  | vUndefined => exact ⟨rfl, rfl⟩
  | vNull => exact ⟨rfl, rfl⟩
  | vBool b => exact ⟨rfl, rfl⟩
  | vNum n => exact ⟨rfl, rfl⟩
  | vObj fields2 => exact ⟨rfl, rfl⟩

/-- Witness for the amended C8 at the number 3 as key path and the
empty-string path on `{}`. -/
theorem claim_C8_amended_witness :
    (isStr (JVal.vNum 3) = false →
      PathAccessor.set (.vObj []) (JVal.vNum 3) (JVal.vNum 7) =
        .error (.typeError "keyPath must be a string") ∧
      PathAccessor.get (.vObj []) (JVal.vNum 3) =
        .error (.typeError "keyPath must be a string")) ∧
    PathAccessor.set (.vObj []) (.vStr "") (JVal.vNum 7) =
      .ok (.vObj (aupdate [] "" (JVal.vNum 7))) ∧
    PathAccessor.get (.vObj []) (.vStr "") =
      .ok ((alookup [] "").getD .vUndefined) :=
  claim_C8_amended [] (JVal.vNum 3) (JVal.vNum 7)

/-- C9: `get` never mutates the root, whatever the outcome: the
instrumented traversal `getF`, which reconstructs the root through
every descent step, returns the root unchanged together with exactly
the outcome of `get` — a read raises or returns but creates and
destroys nothing. -/
theorem claim_C9 (root keyPath : JVal) :
    (PathAccessor.getF root keyPath).1 = root ∧
    (PathAccessor.getF root keyPath).2 = PathAccessor.get root keyPath := by
  by_cases hto : isTypeofObject root = true
  · cases keyPath <;>
      simp [PathAccessor.getF, PathAccessor.get, hto, getGoF_fst, getGoF_snd]
  · cases keyPath <;>
      simp [PathAccessor.getF, PathAccessor.get, hto]

/-- The predicate `hasBadIntermediate` only holds on actual
mappings. -/
theorem hasBadIntermediate_nonMapping (v : JVal) (hm : isMapping v = false) :
    ∀ segs, hasBadIntermediate v segs = false := by
  intro segs
  cases v with
  | vObj fields => simp [isMapping] at hm
  | vNull => cases segs with | nil => rfl | cons a l => cases l <;> rfl
  | vUndefined => cases segs with | nil => rfl | cons a l => cases l <;> rfl
  | vBool b => cases segs with | nil => rfl | cons a l => cases l <;> rfl
  | vNum n => cases segs with | nil => rfl | cons a l => cases l <;> rfl
  | vStr s => cases segs with | nil => rfl | cons a l => cases l <;> rfl

/-- C10: on a loaded adapter whose data has a truthy non-mapping value
at some intermediate segment of the path, `set(path, v)` throws the
descriptive traversal TypeError coming from its prior-value `get`
(line 206) before any write — the adapter's data is unchanged — even
though the standalone path-accessor `set` on the very same data and
path succeeds without throwing. -/
theorem claim_C10 (data v : JVal) (p : String)
    (hbad : hasBadIntermediate data (splitDots p) = true) :
    (StorageAdapter.set data (.vStr p) v).1 = data ∧
    (∃ m, (StorageAdapter.set data (.vStr p) v).2 = .error (.typeError m)) ∧
    (∃ root2, PathAccessor.set data (.vStr p) v = .ok root2) := by
  obtain ⟨fields, rfl⟩ : ∃ fields, data = JVal.vObj fields := by
    cases data with
    | vObj fields => exact ⟨fields, rfl⟩
    | vNull => rw [hasBadIntermediate_nonMapping .vNull rfl] at hbad; cases hbad
    | vUndefined => rw [hasBadIntermediate_nonMapping .vUndefined rfl] at hbad; cases hbad
    | vBool b => rw [hasBadIntermediate_nonMapping (.vBool b) rfl] at hbad; cases hbad
    | vNum n => rw [hasBadIntermediate_nonMapping (.vNum n) rfl] at hbad; cases hbad
    | vStr s => rw [hasBadIntermediate_nonMapping (.vStr s) rfl] at hbad; cases hbad
  obtain ⟨m, hm⟩ := hasBad_getGo_error (splitDots p) fields "" hbad
  have hget : StorageAdapter.get (.vObj fields) (.vStr p) = .error (.typeError m) := by
    rw [StorageAdapter.get, if_neg (by simp [JVal.isNull]), if_neg (by simp [isStr]),
      PathAccessor.get]
    simpa [isTypeofObject] using hm
  have hset : StorageAdapter.set (.vObj fields) (.vStr p) v =
      (.vObj fields, .error (.typeError m)) := by
    rw [StorageAdapter.set, if_neg (by simp [JVal.isNull]), if_neg (by simp [isStr]),
      hget]
  obtain ⟨r, hr⟩ := setGo_ok (splitDots p) (.vObj fields) v rfl
  refine ⟨by rw [hset], ⟨m, by rw [hset]⟩, ⟨r, ?_⟩⟩
  rw [PathAccessor.set]
  simpa [isTypeofObject] using hr

/-- Witness for C10 on the document `{a: 5}` and the path `"a.b"`:
the intermediate `a` holds the truthy non-mapping 5. -/
theorem claim_C10_witness :
    (StorageAdapter.set (.vObj [("a", JVal.vNum 5)]) (.vStr "a.b") (JVal.vNum 9)).1 =
      .vObj [("a", JVal.vNum 5)] ∧
    (∃ m, (StorageAdapter.set (.vObj [("a", JVal.vNum 5)]) (.vStr "a.b")
      (JVal.vNum 9)).2 = .error (.typeError m)) ∧
    (∃ root2, PathAccessor.set (.vObj [("a", JVal.vNum 5)]) (.vStr "a.b")
      (JVal.vNum 9) = .ok root2) :=
  claim_C10 (.vObj [("a", JVal.vNum 5)]) (JVal.vNum 9) "a.b" rfl
